import Mathlib

/-!
Verification development for the geo-located radio-station explorer.

The definitions below are a shallow embedding of the TypeScript source:

* `RadioStation`, `StationFilter`, `AIMoodResponse` mirror the interfaces in
  the types module.
* `reconcile` (merge, dedup-by-uuid interleaved with the geo guard, priority
  sort) embeds the `init` pipeline of `src/App.tsx` lines 33-63.
* `filterResults` embeds the geo filter used by `handleSearch`
  (`results.filter(s => s.geo_lat && s.geo_long)`).
* `handleAIMood` embeds the mood-planner flow of `src/App.tsx` lines 129-151,
  returning the ordered trace of catalog queries it issues together with the
  station list it installs.
* `searchStations` and `getMoodRecommendation` embed the error-recovery
  structure of `src/services/radioService.ts` and
  `src/services/geminiService.ts`, with the network and the JSON parser made
  explicit as `Except` / `Option` valued inputs.
* `frameStep` embeds the two per-frame rotation updates of
  `src/components/Globe3D.tsx` (`RealisticEarth.useFrame` and `EarthRotator`).
* `latLonToVector3` embeds the projection at lines 32-39 of the same file.

JavaScript numbers are modelled by `ℚ` where only equality with zero and
presence matter, and by `ℝ` for the trigonometric projection.  JavaScript
truthiness of the optional fields is modelled explicitly (`0`, `null` and the
empty string are falsy).
-/

/-- Station record shape from the types module: the geo coordinates are
`number | null`, every other field used by the core is a string. -/
structure RadioStation where
  stationuuid : String
  name : String
  url_resolved : String
  tags : String
  country : String
  countrycode : String
  geo_lat : Option ℚ
  geo_long : Option ℚ
deriving DecidableEq

/-- JavaScript truthiness of an optional numeric field: `null` (modelled as
`none`) and the number `0` are falsy, every other number is truthy. -/
def truthyNum : Option ℚ → Bool
  | none => false
  | some v => decide (v ≠ 0)

/-- JavaScript truthiness of an optional string field: `undefined` and the
empty string are falsy. -/
def truthyStr : Option String → Bool
  | none => false
  | some s => decide (s ≠ "")

/-- The guard `s.geo_lat && s.geo_long` used by the dedup loop of `init` and
by the geo filters of `handleSearch` and `handleAIMood`. -/
def geoTruthy (s : RadioStation) : Bool :=
  truthyNum s.geo_lat && truthyNum s.geo_long

/-- Character-list helper: the pattern matches at the head of the text. -/
def charsMatchAt : List Char → List Char → Bool
  | [], _ => true
  | _ :: _, [] => false
  | a :: as, b :: bs => a == b && charsMatchAt as bs

/-- Character-list helper: the pattern occurs somewhere in the text. -/
def charsHaveSub (pat : List Char) : List Char → Bool
  | [] => pat.isEmpty
  | c :: cs => charsMatchAt pat (c :: cs) || charsHaveSub pat cs

/-- `hay.includes(pat)` on strings. -/
def strIncl (hay pat : String) : Bool :=
  charsHaveSub pat.data hay.data

/-- The priority predicate of `init` in `src/App.tsx`: a station is Turkish
when its country code is `TR`, its country name lower-cases to `turkey`, or
its tag string contains `turkey` or `turkish`. -/
def isTurkish (s : RadioStation) : Bool :=
  s.countrycode == "TR" ||
  s.country.toLower == "turkey" ||
  strIncl s.tags.toLower "turkey" ||
  strIncl s.tags.toLower "turkish"

/-- The dedup loop of `init`: walk the merged list keeping a record exactly
when its geo fields are truthy and its uuid has not been seen yet (the `Map`
is modelled by the list `seen` of already-kept uuids). -/
def dedupGeoAux (seen : List String) : List RadioStation → List RadioStation
  | [] => []
  | s :: rest =>
    if geoTruthy s = true ∧ s.stationuuid ∉ seen then
      s :: dedupGeoAux (s.stationuuid :: seen) rest
    else
      dedupGeoAux seen rest

/-- The comparator shape used by the priority sort of `init`, generalised
over the classifying predicate as in the specification: priority before
ordinary, ties compare equal. -/
def priorityCompare {α : Type} (p : α → Bool) (a b : α) : Int :=
  if p a && !(p b) then -1
  else if !(p a) && p b then 1
  else 0

/-- The concrete comparator passed to `finalStations.sort` in `init`. -/
def turkishCompare : RadioStation → RadioStation → Int :=
  priorityCompare isTurkish

/-- Stable insertion into a list that is already sorted by the comparator:
the element moves past exactly those entries it compares strictly greater
than, so entries comparing equal keep their original relative order.  This is
the unique behaviour ECMAScript 2019 `Array.prototype.sort` guarantees for a
consistent comparator. -/
def insertCmp {α : Type} (cmp : α → α → Int) (x : α) : List α → List α
  | [] => [x]
  | y :: ys => if cmp x y > 0 then y :: insertCmp cmp x ys else x :: y :: ys

/-- Stable sort by a comparator (model of `Array.prototype.sort`). -/
def sortCmp {α : Type} (cmp : α → α → Int) : List α → List α
  | [] => []
  | x :: xs => insertCmp cmp x (sortCmp cmp xs)

/-- The whole `init` reconciliation pipeline of `src/App.tsx` lines 33-63:
concatenate the result sets in caller order, dedup by uuid while dropping
geo-falsy records, then stably sort Turkish-priority records to the front. -/
def reconcile (resultSets : List (List RadioStation)) : List RadioStation :=
  sortCmp turkishCompare (dedupGeoAux [] resultSets.flatten)

/-- The geo filter of `handleSearch`:
`results.filter(s => s.geo_lat && s.geo_long)`. -/
def filterResults (records : List RadioStation) : List RadioStation :=
  records.filter (fun s => geoTruthy s)

/-- Query configuration from the types module.  The absent optional fields
stay `none`; `handleAIMood` always sets `limit := 50`. -/
structure StationFilter where
  country : Option String := none
  tag : Option String := none
  name : Option String := none
  limit : Nat := 20
deriving DecidableEq

/-- Structured inference result from the types module. -/
structure AIMoodResponse where
  country : Option String := none
  tag : Option String := none
  explanation : String := ""
deriving DecidableEq

/-- The primary filter built by `handleAIMood`: start from `{ limit: 50 }`
and add `country` and `tag` exactly when the corresponding response field is
truthy. -/
def buildPrimaryFilter (r : AIMoodResponse) : StationFilter :=
  let f0 : StationFilter := { limit := 50 }
  let f1 := if truthyStr r.country then { f0 with country := r.country } else f0
  if truthyStr r.tag then { f1 with tag := r.tag } else f1

/-- The looser fallback filter `{ tag: response.tag, limit: 50 }`. -/
def looseFilter (r : AIMoodResponse) : StationFilter :=
  { tag := r.tag, limit := 50 }

/-- The mood-planner flow of `handleAIMood` (`src/App.tsx` lines 129-151),
with the catalog source abstracted as the function `search`.  The first
component of the result is the ordered trace of queries issued; the second is
the station list installed by `setStations`.  Note the fallback branch
installs `looseResults.filter(s => s.geo_lat)`: it checks only the latitude
field. -/
def handleAIMood (search : StationFilter → List RadioStation)
    (r : AIMoodResponse) : List StationFilter × List RadioStation :=
  let primary := buildPrimaryFilter r
  let results := search primary
  let mapped := results.filter (fun s => geoTruthy s)
  if mapped.length == 0 && truthyStr r.tag then
    ([primary, looseFilter r],
      (search (looseFilter r)).filter (fun s => truthyNum s.geo_lat))
  else
    ([primary], mapped)

/-- Outcome of the `fetch` call inside `searchStations`: the transport either
fails outright, or delivers a response with a success flag and a body that
either parses to a station list or fails to parse. -/
structure SearchResponse where
  ok : Bool
  body : Except Unit (List RadioStation)

/-- `searchStations` of `src/services/radioService.ts`: any thrown error
(transport failure, non-success status, unparseable body) is caught and
turned into the empty list. -/
def searchStations (fetchResult : Except Unit SearchResponse) :
    List RadioStation :=
  match fetchResult with
  | Except.error _ => []
  | Except.ok resp =>
    if resp.ok = false then []
    else
      match resp.body with
      | Except.error _ => []
      | Except.ok stations => stations

/-- The fixed fallback filter returned by `getMoodRecommendation` on any
failure: canned apology explanation plus the default genre tag `pop`. -/
def fallbackMood : AIMoodResponse :=
  { explanation := "Couldn\x27t quite catch that vibe. Try \x27Jazz from France\x27.",
    tag := some "pop" }

/-- `getMoodRecommendation` of `src/services/geminiService.ts`: the inference
call either throws, or returns a response whose `text` may be absent or
empty (both falsy, hence the `No text returned` throw), and `JSON.parse` of a
present text may fail; every such path is caught and yields `fallbackMood`. -/
def getMoodRecommendation (result : Except Unit (Option String))
    (parse : String → Option AIMoodResponse) : AIMoodResponse :=
  match result with
  | Except.error _ => fallbackMood
  | Except.ok none => fallbackMood
  | Except.ok (some txt) =>
    if txt = "" then fallbackMood
    else
      match parse txt with
      | none => fallbackMood
      | some r => r

/-- The orchestrator state touched by `handleStationSelect`. -/
structure AppState where
  stations : List RadioStation
  currentStation : Option RadioStation
  isPlaying : Bool
  aiInsight : String
deriving DecidableEq

/-- `handleStationSelect` of `src/App.tsx` lines 91-105.  When the picked
station has the uuid of the current one, the handler only toggles playback
(pause when playing, play when paused) and returns early.  Otherwise it
installs the new station; whether the audio element actually starts playing
is environment-determined, abstracted as `playbackStarts`, and the fetched
insight text is abstracted as `insight`. -/
def handleStationSelect (insight : String) (playbackStarts : Bool)
    (station : RadioStation) (st : AppState) : AppState :=
  match st.currentStation with
  | some c =>
    if c.stationuuid == station.stationuuid then
      { st with isPlaying := !st.isPlaying }
    else
      { st with currentStation := some station
                isPlaying := playbackStarts
                aiInsight := insight }
  | none =>
    { st with currentStation := some station
              isPlaying := playbackStarts
              aiInsight := insight }

/-- Per-frame rotation state of `Globe3D`: the sphere mesh angle, the cloud
shell angle and the marker-container angle, each a `rotation.y` in radians. -/
structure FrameState where
  earthRot : ℚ
  cloudsRot : ℚ
  markerRot : ℚ
deriving DecidableEq

/-- The literal `0.0005` of `RealisticEarth.useFrame`. -/
def earthIncrement : ℚ := 5 / 10000

/-- The literal `0.0007` of `RealisticEarth.useFrame` (cloud layer). -/
def cloudsIncrement : ℚ := 7 / 10000

/-- The literal `0.0005` of `EarthRotator.useFrame` (marker container). -/
def markerIncrement : ℚ := 5 / 10000

/-- One rendered frame: both `useFrame` callbacks run, each adding its fixed
increment to its own accumulator. -/
def frameStep (s : FrameState) : FrameState :=
  { earthRot := s.earthRot + earthIncrement
    cloudsRot := s.cloudsRot + cloudsIncrement
    markerRot := s.markerRot + markerIncrement }

/-- All three rotations start at the three.js default of `0`. -/
def initFrame : FrameState :=
  { earthRot := 0, cloudsRot := 0, markerRot := 0 }

/-- Advance the render loop by `n` frames. -/
def advanceFrames : Nat → FrameState → FrameState
  | 0, s => s
  | n + 1, s => advanceFrames n (frameStep s)

/-- `latLonToVector3` of `src/components/Globe3D.tsx` lines 32-39, over the
reals. -/
noncomputable def latLonToVector3 (lat lon radius : ℝ) : ℝ × ℝ × ℝ :=
  let phi := (90 - lat) * (Real.pi / 180)
  let theta := (lon + 180) * (Real.pi / 180)
  (-(radius * Real.sin phi * Real.cos theta),
   radius * Real.cos phi,
   radius * Real.sin phi * Real.sin theta)

/-! ## Concrete records and environments used by witnesses and
counterexamples -/

/-- A record with no coordinates, first source, uuid `1`. -/
def stFoo : RadioStation :=
  { stationuuid := "1", name := "Foo", url_resolved := "", tags := ""
    country := "Nowhere", countrycode := "XX"
    geo_lat := none, geo_long := none }

/-- A geo-valid record, second source, same uuid `1`. -/
def stBar : RadioStation :=
  { stationuuid := "1", name := "Bar", url_resolved := "", tags := ""
    country := "Nowhere", countrycode := "XX"
    geo_lat := some 41, geo_long := some 29 }

/-- A record sitting exactly on the equator: latitude present but `0`. -/
def stZeroLat : RadioStation :=
  { stationuuid := "z", name := "Zero", url_resolved := "", tags := ""
    country := "Nowhere", countrycode := "XX"
    geo_lat := some 0, geo_long := some 10 }

/-- A record with a latitude but no longitude. -/
def stLatOnly : RadioStation :=
  { stationuuid := "half", name := "HalfGeo", url_resolved := "", tags := ""
    country := "Japan", countrycode := "JP"
    geo_lat := some 35, geo_long := none }

/-- A mocked inference result: country and tag both present. -/
def moodW : AIMoodResponse :=
  { country := some "Japan", tag := some "jazz", explanation := "smoky downtempo vibes" }

/-- A mocked catalog source: the country-constrained primary query matches
nothing, the tag-only fallback returns the half-geo record. -/
def searchW : StationFilter → List RadioStation :=
  fun f => if f.country.isSome then [] else [stLatOnly]

/-- A mocked transport response with a non-success status. -/
def respW : SearchResponse :=
  { ok := false, body := Except.ok [] }

/-- A mocked JSON parser that rejects every string. -/
def parseW : String → Option AIMoodResponse :=
  fun _ => none

/-- An orchestrator state whose current station is `stBar`. -/
def appStateW : AppState :=
  { stations := [stBar, stZeroLat], currentStation := some stBar
    isPlaying := true, aiInsight := "hello" }

/-! ## Stable-partition behaviour of the priority sort -/

theorem insertCmp_all_le {α : Type} (cmp : α → α → Int) (x : α) (l : List α)
    (h : ∀ y ∈ l, ¬ cmp x y > 0) : insertCmp cmp x l = x :: l := by
  cases l with
  | nil => rfl
  | cons y ys =>
    have hy : ¬ cmp x y > 0 := h y (List.mem_cons_self y ys)
    simp [insertCmp, hy]

theorem insertCmp_skip {α : Type} (cmp : α → α → Int) (x : α) :
    ∀ (A B : List α), (∀ y ∈ A, cmp x y > 0) →
      insertCmp cmp x (A ++ B) = A ++ insertCmp cmp x B := by
  intro A
  induction A with
  | nil => intro B _; rfl
  | cons a as ih =>
    intro B h
    have ha : cmp x a > 0 := h a (List.mem_cons_self a as)
    simp only [List.cons_append, insertCmp, if_pos ha, List.append_eq]
    rw [ih B (fun y hy => h y (List.mem_cons_of_mem a hy))]

theorem sortCmp_partition {α : Type} (p : α → Bool) :
    ∀ l : List α, sortCmp (priorityCompare p) l =
      l.filter p ++ l.filter (fun x => !(p x)) := by
  intro l
  induction l with
  | nil => rfl
  | cons x xs ih =>
    show insertCmp (priorityCompare p) x (sortCmp (priorityCompare p) xs) = _
    rw [ih]
    by_cases hp : p x = true
    · have hins : insertCmp (priorityCompare p) x
          (xs.filter p ++ xs.filter (fun z => !(p z))) =
          x :: (xs.filter p ++ xs.filter (fun z => !(p z))) := by
        apply insertCmp_all_le
        intro y hy
        rcases List.mem_append.mp hy with hyA | hyB
        · have hpy : p y = true := (List.mem_filter.mp hyA).2
          simp [priorityCompare, hp, hpy]
        · have hpy : (!(p y)) = true := (List.mem_filter.mp hyB).2
          simp only [Bool.not_eq_true'] at hpy
          simp [priorityCompare, hp, hpy]
      rw [hins]
      simp [List.filter_cons, hp]
    · have hpx : p x = false := Bool.not_eq_true (p x) ▸ (by simpa using hp)
      have hskip : insertCmp (priorityCompare p) x
          (xs.filter p ++ xs.filter (fun z => !(p z))) =
          xs.filter p ++ insertCmp (priorityCompare p) x (xs.filter (fun z => !(p z))) := by
        apply insertCmp_skip
        intro y hy
        have hpy : p y = true := (List.mem_filter.mp hy).2
        simp [priorityCompare, hpx, hpy]
      have hins : insertCmp (priorityCompare p) x (xs.filter (fun z => !(p z))) =
          x :: xs.filter (fun z => !(p z)) := by
        apply insertCmp_all_le
        intro y hy
        have hpy : (!(p y)) = true := (List.mem_filter.mp hy).2
        simp only [Bool.not_eq_true'] at hpy
        simp [priorityCompare, hpx, hpy]
      rw [hskip, hins]
      simp [List.filter_cons, hpx]

/-- C5: the priority reorder performed by `reconcile` is a stable partition:
for every classifying predicate `p`, sorting with the induced comparator
yields all priority records (in original order) followed by all ordinary
records (in original order); instantiated both at the concrete Turkish
comparator of `init` and at the spec example `[p1, o1, p2, o2] ↦
[p1, p2, o1, o2]`. -/
theorem reconcile_priority_stable_partition :
    (∀ (α : Type) (p : α → Bool) (l : List α),
        sortCmp (priorityCompare p) l = l.filter p ++ l.filter (fun x => !(p x))) ∧
    (∀ l : List RadioStation,
        sortCmp turkishCompare l =
          l.filter isTurkish ++ l.filter (fun s => !(isTurkish s))) ∧
    sortCmp (priorityCompare (fun b : Bool => b)) [true, false, true, false] =
      [true, true, false, false] := by
  refine ⟨fun α p l => sortCmp_partition p l, fun l => sortCmp_partition isTurkish l, ?_⟩
  decide

/-! ## Frame-rotation synchronisation -/

theorem advanceFrames_spec : ∀ (n : Nat) (s : FrameState),
    advanceFrames n s =
      { earthRot := s.earthRot + n * earthIncrement
        cloudsRot := s.cloudsRot + n * cloudsIncrement
        markerRot := s.markerRot + n * markerIncrement } := by
  intro n
  induction n with
  | zero => intro s; cases s; simp [advanceFrames]
  | succ n ih =>
    intro s
    show advanceFrames n (frameStep s) = _
    rw [ih (frameStep s)]
    simp only [frameStep, FrameState.mk.injEq]
    push_cast
    refine ⟨by ring, by ring, by ring⟩

/-- C1: both the sphere mesh and the marker container advance by the same
fixed increment every rendered frame (the two literals `0.0005` are equal),
so after any number `N` of frame advances the rotation applied to the marker
container equals the rotation applied to the sphere mesh: markers never
diverge from the surface texture, regardless of `N`. -/
theorem rotation_sync_invariant (N : Nat) :
    (advanceFrames N initFrame).earthRot = (advanceFrames N initFrame).markerRot ∧
    (advanceFrames N initFrame).earthRot = N * earthIncrement ∧
    (advanceFrames N initFrame).markerRot = N * markerIncrement ∧
    earthIncrement = markerIncrement := by
  rw [advanceFrames_spec]
  refine ⟨?_, by simp [initFrame], by simp [initFrame], rfl⟩
  simp [initFrame, earthIncrement, markerIncrement]

/-! ## Characterisation of the dedup-and-geo-filter loop -/

theorem mem_dedupGeoAux :
    ∀ (l : List RadioStation) (seen : List String) (t : RadioStation),
      t ∈ dedupGeoAux seen l ↔
        t.stationuuid ∉ seen ∧
          (l.filter (fun s => geoTruthy s)).find?
            (fun u => u.stationuuid == t.stationuuid) = some t := by
  intro l
  induction l with
  | nil =>
    intro seen t
    simp [dedupGeoAux]
  | cons s rest ih =>
    intro seen t
    by_cases hg : geoTruthy s = true
    · by_cases hs : s.stationuuid ∈ seen
      · have hstep : dedupGeoAux seen (s :: rest) = dedupGeoAux seen rest := by
          simp only [dedupGeoAux]
          rw [if_neg]
          intro hcontra
          exact hcontra.2 hs
        rw [hstep, ih seen t, List.filter_cons, if_pos hg]
        by_cases hst : (s.stationuuid == t.stationuuid) = true
        · have heq : s.stationuuid = t.stationuuid := eq_of_beq hst
          have hts : t.stationuuid ∈ seen := heq ▸ hs
          simp [hts]
        · rw [List.find?_cons_of_neg (p := fun u : RadioStation => u.stationuuid == t.stationuuid) _
            (by simpa using hst)]
      · have hstep : dedupGeoAux seen (s :: rest) =
            s :: dedupGeoAux (s.stationuuid :: seen) rest := by
          simp only [dedupGeoAux]
          rw [if_pos ⟨hg, hs⟩]
        rw [hstep, List.filter_cons, if_pos hg]
        by_cases hst : (s.stationuuid == t.stationuuid) = true
        · have heq : s.stationuuid = t.stationuuid := eq_of_beq hst
          rw [List.find?_cons_of_pos (p := fun u : RadioStation => u.stationuuid == t.stationuuid) _ hst]
          constructor
          · intro hmem
            rcases List.mem_cons.mp hmem with hts | hmemrest
            · exact ⟨heq ▸ hs, by rw [hts]⟩
            · exfalso
              have h2 := (ih (s.stationuuid :: seen) t).mp hmemrest
              exact h2.1 (by rw [← heq]; exact List.mem_cons_self _ _)
          · rintro ⟨hnotseen, hsome⟩
            have hts : s = t := by injection hsome
            exact List.mem_cons.mpr (Or.inl hts.symm)
        · have hne : s.stationuuid ≠ t.stationuuid := fun h => hst (by rw [h]; exact beq_self_eq_true _)
          rw [List.find?_cons_of_neg (p := fun u : RadioStation => u.stationuuid == t.stationuuid) _
            (by simpa using hst)]
          rw [List.mem_cons, ih (s.stationuuid :: seen) t]
          constructor
          · rintro (hts | ⟨hnot, hfind⟩)
            · exact absurd (show s.stationuuid = t.stationuuid by rw [hts]) hne
            · exact ⟨fun hmem => hnot (List.mem_cons_of_mem _ hmem), hfind⟩
          · rintro ⟨hnot, hfind⟩
            right
            refine ⟨?_, hfind⟩
            intro hmem
            rcases List.mem_cons.mp hmem with heq2 | hmem2
            · exact hne heq2.symm
            · exact hnot hmem2
    · have hstep : dedupGeoAux seen (s :: rest) = dedupGeoAux seen rest := by
        simp only [dedupGeoAux]
        rw [if_neg (fun hc => hg hc.1)]
      rw [hstep, ih seen t, List.filter_cons, if_neg hg]

theorem dedupGeoAux_uuid_nodup :
    ∀ (l : List RadioStation) (seen : List String),
      ((dedupGeoAux seen l).map (fun s => s.stationuuid)).Nodup ∧
        ∀ u ∈ (dedupGeoAux seen l).map (fun s => s.stationuuid), u ∉ seen := by
  intro l
  induction l with
  | nil => intro seen; simp [dedupGeoAux]
  | cons s rest ih =>
    intro seen
    by_cases hc : geoTruthy s = true ∧ s.stationuuid ∉ seen
    · simp only [dedupGeoAux, if_pos hc, List.map_cons]
      obtain ⟨ihnd, ihseen⟩ := ih (s.stationuuid :: seen)
      refine ⟨List.nodup_cons.mpr ⟨?_, ihnd⟩, ?_⟩
      · intro hmem
        exact (ihseen _ hmem) (List.mem_cons_self _ _)
      · intro u hu
        rcases List.mem_cons.mp hu with huq | hu2
        · exact huq ▸ hc.2
        · exact fun huseen => (ihseen u hu2) (List.mem_cons_of_mem _ huseen)
    · simp only [dedupGeoAux, if_neg hc]
      exact ih seen

theorem dedupGeoAux_truthy :
    ∀ (l : List RadioStation) (seen : List String) (s : RadioStation),
      s ∈ dedupGeoAux seen l → geoTruthy s = true := by
  intro l
  induction l with
  | nil =>
    intro seen s h
    simp [dedupGeoAux] at h
  | cons a rest ih =>
    intro seen s h
    by_cases hc : geoTruthy a = true ∧ a.stationuuid ∉ seen
    · simp only [dedupGeoAux, if_pos hc] at h
      rcases List.mem_cons.mp h with hsa | h2
      · exact hsa ▸ hc.1
      · exact ih _ s h2
    · simp only [dedupGeoAux, if_neg hc] at h
      exact ih seen s h

theorem dedupGeoAux_id :
    ∀ (l : List RadioStation) (seen : List String),
      (∀ s ∈ l, geoTruthy s = true) →
      ((l.map (fun s => s.stationuuid)).Nodup) →
      (∀ s ∈ l, s.stationuuid ∉ seen) →
      dedupGeoAux seen l = l := by
  intro l
  induction l with
  | nil => intro seen _ _ _; rfl
  | cons a rest ih =>
    intro seen hall hnd hseen
    rw [List.map_cons] at hnd
    obtain ⟨hhead, htail⟩ := List.nodup_cons.mp hnd
    have hc : geoTruthy a = true ∧ a.stationuuid ∉ seen :=
      ⟨hall a (List.mem_cons_self a rest), hseen a (List.mem_cons_self a rest)⟩
    simp only [dedupGeoAux, if_pos hc]
    congr 1
    apply ih (a.stationuuid :: seen)
    · intro s hsm
      exact hall s (List.mem_cons_of_mem a hsm)
    · exact htail
    · intro s hsm hmem
      rcases List.mem_cons.mp hmem with heq | hm2
      · have hmap : s.stationuuid ∈ rest.map (fun u => u.stationuuid) :=
          List.mem_map.mpr ⟨s, hsm, rfl⟩
        rw [heq] at hmap
        exact hhead hmap
      · exact hseen s (List.mem_cons_of_mem a hsm) hm2

/-! ## Permutation facts about the priority sort -/

theorem sortCmp_perm_priority {α : Type} (p : α → Bool) (l : List α) :
    List.Perm (sortCmp (priorityCompare p) l) l := by
  rw [sortCmp_partition]
  exact List.filter_append_perm p l

theorem sortCmp_turkish_perm (l : List RadioStation) :
    List.Perm (sortCmp turkishCompare l) l :=
  sortCmp_perm_priority isTurkish l

theorem mem_reconcile_iff (X : List (List RadioStation)) (t : RadioStation) :
    t ∈ reconcile X ↔
      (X.flatten.filter (fun s => geoTruthy s)).find?
        (fun u => u.stationuuid == t.stationuuid) = some t := by
  show t ∈ sortCmp turkishCompare (dedupGeoAux [] X.flatten) ↔ _
  rw [(sortCmp_turkish_perm _).mem_iff, mem_dedupGeoAux X.flatten [] t]
  simp

theorem reconcile_truthy (X : List (List RadioStation)) (t : RadioStation)
    (h : t ∈ reconcile X) : geoTruthy t = true := by
  have h2 : t ∈ dedupGeoAux [] X.flatten :=
    (sortCmp_turkish_perm _).mem_iff.mp h
  exact dedupGeoAux_truthy X.flatten [] t h2

theorem reconcile_uuid_nodup (X : List (List RadioStation)) :
    ((reconcile X).map (fun s => s.stationuuid)).Nodup := by
  have hperm :=
    (sortCmp_turkish_perm (dedupGeoAux [] X.flatten)).map (fun s => s.stationuuid)
  exact hperm.nodup_iff.mpr (dedupGeoAux_uuid_nodup X.flatten []).1

/-! ## Idempotence of the pipeline -/

theorem sortCmp_priority_idem {α : Type} (p : α → Bool) (l : List α) :
    sortCmp (priorityCompare p) (sortCmp (priorityCompare p) l) =
      sortCmp (priorityCompare p) l := by
  rw [sortCmp_partition p l, sortCmp_partition p]
  rw [List.filter_append, List.filter_append]
  have hA : (l.filter p).filter p = l.filter p :=
    List.filter_eq_self.mpr (fun a ha => (List.mem_filter.mp ha).2)
  have hB : (l.filter (fun x => !(p x))).filter p = [] := by
    refine List.filter_eq_nil_iff.mpr ?_
    intro a ha
    have h2 := (List.mem_filter.mp ha).2
    simp only [Bool.not_eq_true'] at h2
    simp [h2]
  have hA2 : (l.filter p).filter (fun x => !(p x)) = [] := by
    refine List.filter_eq_nil_iff.mpr ?_
    intro a ha
    have h2 := (List.mem_filter.mp ha).2
    simp [h2]
  have hB2 : (l.filter (fun x => !(p x))).filter (fun x => !(p x)) =
      l.filter (fun x => !(p x)) :=
    List.filter_eq_self.mpr (fun a ha => (List.mem_filter.mp ha).2)
  rw [hA, hB, hA2, hB2]
  simp

theorem reconcile_reconcile (X : List (List RadioStation)) :
    reconcile [reconcile X] = reconcile X := by
  have hflat : ([reconcile X] : List (List RadioStation)).flatten = reconcile X := by
    simp
  show sortCmp turkishCompare (dedupGeoAux [] ([reconcile X].flatten)) = reconcile X
  rw [hflat]
  have htruthy : ∀ s ∈ reconcile X, geoTruthy s = true :=
    fun s hs => reconcile_truthy X s hs
  have hnd : ((reconcile X).map (fun s => s.stationuuid)).Nodup :=
    reconcile_uuid_nodup X
  rw [dedupGeoAux_id (reconcile X) [] htruthy hnd (by simp)]
  show sortCmp (priorityCompare isTurkish)
      (sortCmp (priorityCompare isTurkish) (dedupGeoAux [] X.flatten)) =
    sortCmp (priorityCompare isTurkish) (dedupGeoAux [] X.flatten)
  exact sortCmp_priority_idem isTurkish (dedupGeoAux [] X.flatten)

/-! ## Claim theorems about the reconciliation engine -/

/-- C3 (counterexample): the geo-validity step does not keep every record
with both coordinates present — the station `stZeroLat` has latitude
`some 0` and longitude `some 10`, yet both `filterResults` and `reconcile`
drop it, because the JavaScript guard `s.geo_lat && s.geo_long` treats the
number `0` as falsy. -/
theorem geo_filter_drops_zero_coordinate :
    stZeroLat.geo_lat = some 0 ∧ stZeroLat.geo_long = some 10 ∧
    filterResults [stZeroLat] = [] ∧ reconcile [[stZeroLat]] = [] := by
  refine ⟨rfl, rfl, ?_, ?_⟩ <;> decide

/-- C3 (amended): the geo-validity filter drops a record exactly when its
latitude or longitude is absent or zero (JavaScript-falsy): membership in
`filterResults` is equivalent to membership in the input plus truthiness of
both coordinates; every record of `reconcile`'s output has both coordinates
truthy; and every record that is the first truthy-coordinate occurrence of
its uuid survives `reconcile`. -/
theorem geo_validity_filter_characterisation
    (l : List RadioStation) (s : RadioStation) :
    (s ∈ filterResults l ↔ (s ∈ l ∧ geoTruthy s = true)) ∧
    (∀ t ∈ reconcile [l], geoTruthy t = true) ∧
    ((l.filter (fun u => geoTruthy u)).find?
        (fun u => u.stationuuid == s.stationuuid) = some s →
      s ∈ reconcile [l]) := by
  refine ⟨by simp [filterResults], ?_, ?_⟩
  · intro t ht
    exact reconcile_truthy [l] t ht
  · intro hfind
    rw [mem_reconcile_iff [l] s]
    simpa using hfind

theorem geo_validity_filter_characterisation_witness :
    (([stBar].filter (fun u => geoTruthy u)).find?
        (fun u => u.stationuuid == stBar.stationuuid) = some stBar) ∧
    stBar ∈ reconcile [[stBar]] :=
  ⟨by decide, (geo_validity_filter_characterisation [stBar] stBar).2.2 (by decide)⟩

/-- C4 (counterexample): when the earlier-concatenated duplicate is not
geo-valid, it is not the record kept: sources `[[stFoo], [stBar]]` share the
uuid `1`, and `reconcile` keeps the later `stBar`, not the earlier
`stFoo`. -/
theorem dedup_earlier_record_not_kept :
    stFoo.stationuuid = stBar.stationuuid ∧ stFoo ≠ stBar ∧
    reconcile [[stFoo], [stBar]] = [stBar] := by
  refine ⟨rfl, ?_, ?_⟩ <;> decide

/-- C4 (amended): `reconcile`'s output never contains two records with the
same identifier, and a record is kept exactly when it is the first
occurrence, among the geo-truthy records of the concatenated input, of its
identifier — so first occurrence wins among geo-valid records, while a
geo-invalid earlier duplicate does not block a later geo-valid one. -/
theorem reconcile_dedup_first_truthy_wins
    (X : List (List RadioStation)) (t : RadioStation) :
    ((reconcile X).map (fun s => s.stationuuid)).Nodup ∧
    (t ∈ reconcile X ↔
      (X.flatten.filter (fun s => geoTruthy s)).find?
        (fun u => u.stationuuid == t.stationuuid) = some t) :=
  ⟨reconcile_uuid_nodup X, mem_reconcile_iff X t⟩

theorem reconcile_dedup_first_truthy_wins_witness :
    ((reconcile [[stFoo], [stBar]]).map (fun s => s.stationuuid)).Nodup ∧
    (stBar ∈ reconcile [[stFoo], [stBar]] ↔
      (([[stFoo], [stBar]] : List (List RadioStation)).flatten.filter
          (fun s => geoTruthy s)).find?
        (fun u => u.stationuuid == stBar.stationuuid) = some stBar) :=
  reconcile_dedup_first_truthy_wins [[stFoo], [stBar]] stBar

/-- C6: `reconcile` is idempotent — re-reconciling an already reconciled
catalog returns it unchanged, in the same order, for every input `X`. -/
theorem reconcile_idempotent (X : List (List RadioStation)) :
    reconcile [reconcile X] = reconcile X :=
  reconcile_reconcile X

/-! ## Claim theorems about the mood query planner -/

/-- C2 (counterexample): the looser fallback query's response is filtered
only on `geo_lat`, so a record with a latitude but no longitude is installed
as part of the new catalog: with the mocked source `searchW`, the fallback
runs (two queries issued) and installs `stLatOnly`, whose longitude is
absent. -/
theorem mood_fallback_installs_missing_longitude :
    (handleAIMood searchW moodW).1.length = 2 ∧
    (handleAIMood searchW moodW).2 = [stLatOnly] ∧
    stLatOnly.geo_long = none := by
  refine ⟨?_, ?_, rfl⟩ <;> decide

/-- C2 (amended): when the primary filtered query yields zero geo-valid
records and a tag was present, the fallback tag-only response is filtered on
latitude presence only before becoming the new catalog: every installed
record has a truthy latitude, but its longitude is not checked and may be
absent. -/
theorem mood_fallback_filters_latitude_only
    (search : StationFilter → List RadioStation) (r : AIMoodResponse)
    (hempty : (search (buildPrimaryFilter r)).filter (fun s => geoTruthy s) = [])
    (htag : truthyStr r.tag = true) :
    (handleAIMood search r).1 = [buildPrimaryFilter r, looseFilter r] ∧
    (handleAIMood search r).2 =
      (search (looseFilter r)).filter (fun s => truthyNum s.geo_lat) ∧
    ∀ s ∈ (handleAIMood search r).2, truthyNum s.geo_lat = true := by
  have hmood : handleAIMood search r =
      ([buildPrimaryFilter r, looseFilter r],
        (search (looseFilter r)).filter (fun s => truthyNum s.geo_lat)) := by
    unfold handleAIMood
    simp [hempty, htag]
  refine ⟨by rw [hmood], by rw [hmood], ?_⟩
  intro s hs
  rw [hmood] at hs
  exact (List.mem_filter.mp hs).2

theorem mood_fallback_filters_latitude_only_witness :
    ((searchW (buildPrimaryFilter moodW)).filter (fun s => geoTruthy s) = [] ∧
      truthyStr moodW.tag = true) ∧
    ((handleAIMood searchW moodW).1 = [buildPrimaryFilter moodW, looseFilter moodW] ∧
      (handleAIMood searchW moodW).2 =
        (searchW (looseFilter moodW)).filter (fun s => truthyNum s.geo_lat) ∧
      ∀ s ∈ (handleAIMood searchW moodW).2, truthyNum s.geo_lat = true) :=
  ⟨⟨by decide, by decide⟩,
    mood_fallback_filters_latitude_only searchW moodW (by decide) (by decide)⟩

/-- C8: in every `handleAIMood` run, the primary query (built from the
returned country and tag, omitting falsy fields) is the first query issued;
the trace is either the primary alone or the primary followed by exactly one
tag-only fallback; and the fallback is issued precisely when the primary
result has zero geo-valid records and a tag was present. -/
theorem mood_query_ordering
    (search : StationFilter → List RadioStation) (r : AIMoodResponse) :
    ((handleAIMood search r).1.head? = some (buildPrimaryFilter r)) ∧
    ((handleAIMood search r).1 = [buildPrimaryFilter r] ∨
      (handleAIMood search r).1 = [buildPrimaryFilter r, looseFilter r]) ∧
    ((handleAIMood search r).1 = [buildPrimaryFilter r, looseFilter r] ↔
      ((search (buildPrimaryFilter r)).filter (fun s => geoTruthy s) = [] ∧
        truthyStr r.tag = true)) := by
  have hmain : (handleAIMood search r).1 =
      if ((search (buildPrimaryFilter r)).filter (fun s => geoTruthy s)).length == 0
          && truthyStr r.tag
      then [buildPrimaryFilter r, looseFilter r]
      else [buildPrimaryFilter r] := by
    unfold handleAIMood
    by_cases hc : (((search (buildPrimaryFilter r)).filter
        (fun s => geoTruthy s)).length == 0 && truthyStr r.tag) = true
    · simp [hc]
    · simp [hc]
  cases hcond : ((search (buildPrimaryFilter r)).filter
      (fun s => geoTruthy s)).length == 0 && truthyStr r.tag with
  | true =>
    have hsplit := Bool.and_eq_true_iff.mp hcond
    have hmap : (search (buildPrimaryFilter r)).filter (fun s => geoTruthy s) = [] :=
      List.length_eq_zero.mp (eq_of_beq hsplit.1)
    simp [hmain, hcond, hmap, hsplit.2]
  | false =>
    have hneg : ¬ ((search (buildPrimaryFilter r)).filter (fun s => geoTruthy s) = [] ∧
        truthyStr r.tag = true) := by
      rintro ⟨h1, h2⟩
      rw [h1, h2] at hcond
      simp at hcond
    have hfalse : (handleAIMood search r).1 = [buildPrimaryFilter r] := by
      rw [hmain, hcond]
      simp
    refine ⟨by rw [hfalse]; rfl, Or.inl hfalse, ?_⟩
    constructor
    · intro hlist
      rw [hfalse] at hlist
      exact absurd (congrArg List.length hlist) (by simp)
    · intro hR
      exact absurd hR hneg

theorem mood_query_ordering_witness :
    ((handleAIMood searchW moodW).1.head? = some (buildPrimaryFilter moodW)) ∧
    ((handleAIMood searchW moodW).1 = [buildPrimaryFilter moodW] ∨
      (handleAIMood searchW moodW).1 = [buildPrimaryFilter moodW, looseFilter moodW]) ∧
    ((handleAIMood searchW moodW).1 = [buildPrimaryFilter moodW, looseFilter moodW] ↔
      ((searchW (buildPrimaryFilter moodW)).filter (fun s => geoTruthy s) = [] ∧
        truthyStr moodW.tag = true)) :=
  mood_query_ordering searchW moodW

/-! ## Claim theorems about error recovery -/

/-- C9: no failure is fatal.  A transport error, a non-success status, or an
unparseable body make the catalog query return the empty list; a failing
inference call, an absent response text, or an unparseable response text make
the mood operation return the fixed fallback filter (canned apology plus the
default tag `pop`); every failure path yields a usable result. -/
theorem failure_paths_recovered (resp : SearchResponse)
    (parse : String → Option AIMoodResponse) (txt : String)
    (hok : resp.ok = false) (hparse : parse txt = none) :
    searchStations (Except.error ()) = [] ∧
    searchStations (Except.ok resp) = [] ∧
    searchStations (Except.ok { ok := true, body := Except.error () }) = [] ∧
    getMoodRecommendation (Except.error ()) parse = fallbackMood ∧
    getMoodRecommendation (Except.ok none) parse = fallbackMood ∧
    getMoodRecommendation (Except.ok (some txt)) parse = fallbackMood := by
  refine ⟨rfl, ?_, rfl, rfl, rfl, ?_⟩
  · simp [searchStations, hok]
  · by_cases he : txt = ""
    · simp [getMoodRecommendation, he]
    · simp [getMoodRecommendation, he, hparse]

theorem failure_paths_recovered_witness :
    (respW.ok = false ∧ parseW "x" = none) ∧
    (searchStations (Except.error ()) = [] ∧
      searchStations (Except.ok respW) = [] ∧
      searchStations (Except.ok { ok := true, body := Except.error () }) = [] ∧
      getMoodRecommendation (Except.error ()) parseW = fallbackMood ∧
      getMoodRecommendation (Except.ok none) parseW = fallbackMood ∧
      getMoodRecommendation (Except.ok (some "x")) parseW = fallbackMood) :=
  ⟨⟨rfl, rfl⟩, failure_paths_recovered respW parseW "x" rfl rfl⟩

/-! ## Claim theorem about re-selecting the current station -/

/-- C10: selecting the station that is already current only toggles playback:
the selected-station value and the station catalog are unchanged, and the
playing flag is negated. -/
theorem select_same_station_frame (insight : String) (playbackStarts : Bool)
    (station : RadioStation) (st : AppState) (c : RadioStation)
    (hcur : st.currentStation = some c)
    (huuid : c.stationuuid = station.stationuuid) :
    (handleStationSelect insight playbackStarts station st).stations = st.stations ∧
    (handleStationSelect insight playbackStarts station st).currentStation =
      st.currentStation ∧
    (handleStationSelect insight playbackStarts station st).isPlaying =
      !st.isPlaying := by
  have hbeq : (c.stationuuid == station.stationuuid) = true := by
    rw [huuid]
    exact beq_self_eq_true _
  unfold handleStationSelect
  rw [hcur]
  simp [hbeq]

theorem select_same_station_frame_witness :
    (appStateW.currentStation = some stBar ∧
      stBar.stationuuid = stBar.stationuuid) ∧
    ((handleStationSelect "i" false stBar appStateW).stations = appStateW.stations ∧
      (handleStationSelect "i" false stBar appStateW).currentStation =
        appStateW.currentStation ∧
      (handleStationSelect "i" false stBar appStateW).isPlaying =
        !appStateW.isPlaying) :=
  ⟨⟨rfl, rfl⟩, select_same_station_frame "i" false stBar appStateW stBar rfl rfl⟩

/-! ## Claim theorem about the projection -/

/-- C7: `latLonToVector3 lat lon r` returns a point at exact Euclidean
distance `r` from the origin for every latitude, longitude and positive
radius, and it is a pure function of its arguments (no rotation state
enters: two calls at identical arguments are identical). -/
theorem project_distance (lat lon r : ℝ) (hr : 0 < r) :
    Real.sqrt ((latLonToVector3 lat lon r).1 ^ 2 +
        (latLonToVector3 lat lon r).2.1 ^ 2 +
        (latLonToVector3 lat lon r).2.2 ^ 2) = r ∧
    latLonToVector3 lat lon r = latLonToVector3 lat lon r := by
  refine ⟨?_, rfl⟩
  have hsq : (latLonToVector3 lat lon r).1 ^ 2 +
      (latLonToVector3 lat lon r).2.1 ^ 2 +
      (latLonToVector3 lat lon r).2.2 ^ 2 = r ^ 2 := by
    simp only [latLonToVector3]
    have h1 := Real.sin_sq_add_cos_sq ((lon + 180) * (Real.pi / 180))
    have h2 := Real.sin_sq_add_cos_sq ((90 - lat) * (Real.pi / 180))
    linear_combination (r ^ 2 * Real.sin ((90 - lat) * (Real.pi / 180)) ^ 2) * h1 +
      r ^ 2 * h2
  rw [hsq]
  exact Real.sqrt_sq hr.le

theorem project_distance_witness :
    (0 : ℝ) < 1 ∧
    (Real.sqrt ((latLonToVector3 0 0 1).1 ^ 2 +
        (latLonToVector3 0 0 1).2.1 ^ 2 +
        (latLonToVector3 0 0 1).2.2 ^ 2) = 1 ∧
      latLonToVector3 0 0 1 = latLonToVector3 0 0 1) :=
  ⟨one_pos, project_distance 0 0 1 one_pos⟩
